import Mathlib

/-!
Shallow embedding of `twisted/mail/relay.py`: the relay authorization policy
(`DomainQueuerRelayRules.willRelay`), the queueing acceptor (`DomainQueuer.exists`
and `DomainQueuer.startMessage`), and the delivery agent (`RelayerMixin.loadMessages`,
`getMailFrom`, `getMailTo`, `getMailData`, `sentMail`).

Modelling conventions:
- A peer address is either a UNIX-socket address (`twisted.internet.address.UNIXAddress`)
  or a network address carrying a `host` string.
- The file system is an association list from file names to contents.  A header
  artifact written by `pickle.dump` is modelled as holding the pickled value itself
  (a list of strings); `pickle` is the Python standard library, which round-trips
  lists of strings faithfully.  Any other content is `raw` bytes.
- Open Python file handles are modelled by the name of the file they refer to;
  the set of currently open handles is tracked in a `World` for the
  resource-release claims.
- Python exceptions (`SMTPBadRcpt`, `IndexError`, `OSError`/`IOError` from file
  operations, unpickling errors) become an explicit `Err` type; a raising call
  returns the error together with the state as mutated up to the raise point.
-/

namespace TwistedRelay

/-- The peer address of the inbound connection, as returned by
`protocol.transport.getPeer()`: either a UNIX-socket (inter-process) address or a
network address with a `host` string. -/
inductive Peer
  | unix (name : String)
  | inet (host : String)
deriving DecidableEq, Repr

/-- The `host` attribute of a peer, when it is a network address. -/
def Peer.host? : Peer → Option String
  | .unix _ => none
  | .inet h => some h

/-- `DomainQueuerRelayRules.willRelay(address, protocol, authorized)`:
`authorized or isinstance(peer, UNIXAddress) or peer.host == '127.0.0.1'`.
The destination address is ignored by the default rules; the protocol is
represented by its transport peer. -/
def DomainQueuerRelayRules.willRelay (address : String) (peer : Peer)
    (authorized : Bool) : Bool :=
  authorized || (match peer with
    | .unix _ => true
    | .inet host => host == "127.0.0.1")

/-- A `User` as consumed by `DomainQueuer.exists`: the envelope originator
`orig`, the destination `dest`, and the peer of the connection the request
arrived over (`user.protocol.transport.getPeer()`). -/
structure User where
  orig : String
  dest : String
  peer : Peer
deriving DecidableEq, Repr

/-- Python `str.split('@', 1)`: when the string contains an `'@'`, the pieces
before and after its first occurrence; otherwise the whole string as the only
piece. -/
def pySplitAtFirst (s : String) : List String :=
  if s.data.contains '@' then
    [String.mk (s.data.takeWhile (fun c => c != '@')),
     String.mk ((s.data.dropWhile (fun c => c != '@')).tail)]
  else
    [s]

/-- `filter(None, str(addr).split('@', 1))`: the pieces of the split that are
non-empty (truthy). -/
def truthyParts (s : String) : List String :=
  (pySplitAtFirst s).filter (fun p => p != "")

/-- Python exceptions arising in `relay.py`, made explicit. -/
inductive Err
  | smtpBadRcpt
  | storageFailure
  | unpicklingError
  | indexError
deriving DecidableEq, Repr

/-- Contents of a persisted artifact: either a value written by `pickle.dump`
(here always a list of strings) or raw bytes. -/
inductive FileContent
  | pickled (env : List String)
  | raw (bytes : List Nat)
deriving DecidableEq, Repr

/-- The file system: an association list from file names to contents. -/
abbrev FS := List (String × FileContent)

/-- Look up the content of the named file. -/
def fsLookup (name : String) : FS → Option FileContent
  | [] => none
  | e :: rest => if e.1 = name then some e.2 else fsLookup name rest

/-- Whether a file with the given name exists. -/
def fsHas (name : String) (fs : FS) : Bool :=
  (fsLookup name fs).isSome

/-- `os.remove`: delete the named file, or fail (`OSError`) when it is absent. -/
def osRemove (name : String) (fs : FS) : Option FS :=
  if fsHas name fs then some (fs.filter (fun e => e.1 != name)) else none

/-- Overwrite the content of an existing file. -/
def fsWrite (name : String) (c : FileContent) (fs : FS) : FS :=
  fs.map (fun e => if e.1 == name then (name, c) else e)

/-- `DomainQueuer.exists(user)` with the default relay rules.  It evaluates
`self.willRelay(user.dest, user.protocol)` (which forwards to
`DomainQueuerRelayRules.willRelay` with `self.authed`), then performs the
two-non-empty-parts validation of both addresses; on success it returns the
zero-argument factory `lambda: self.startMessage(user)`, modelled by the
captured `user`; otherwise it raises `smtp.SMTPBadRcpt(user)`.  The method
performs no storage operation, so the file system is threaded through
unchanged. -/
def DomainQueuer.existsCheck (authed : Bool) (u : User) (fs : FS) :
    Except Err User × FS :=
  (if DomainQueuerRelayRules.willRelay u.dest u.peer authed then
    if (truthyParts u.orig).length == 2 && (truthyParts u.dest).length == 2 then
      Except.ok u
    else
      Except.error Err.smtpBadRcpt
  else
    Except.error Err.smtpBadRcpt, fs)

/-- The file system together with the set of currently open file handles (a
handle is modelled by the name of the file it refers to). -/
structure World where
  fs : FS
  openHandles : List String
deriving DecidableEq, Repr

/-- Modelled from the spec: `createNewMessage()` of the relay queue store
(§4.3; the store itself, `twisted.mail.mail.FileMailQueue`, is not under
`src/`): allocates a fresh base key and two fresh artifacts — the header
(envelope) file `key ++ "-H"` and the data file `key ++ "-D"` — and returns
open handles to both.  The base key is supplied explicitly; the theorems
carry the no-collision requirement as a freshness hypothesis. -/
def createNewMessage (key : String) (w : World) : World × String × String :=
  ({ fs := w.fs ++ [(key ++ "-H", FileContent.raw []), (key ++ "-D", FileContent.raw [])],
     openHandles := w.openHandles ++ [key ++ "-H", key ++ "-D"] },
   key ++ "-H", key ++ "-D")

/-- `fp.close()`: release an open handle. -/
def closeHandle (h : String) (w : World) : World :=
  { w with openHandles := w.openHandles.filter (fun x => x != h) }

/-- The outcome of `DomainQueuer.startMessage`: the propagated exception (if
any), the resulting world, and on success the message receiver (a handle over
the data artifact, standing for the `IMessage` provider returned by the
store). -/
structure StartResult where
  err : Option Err
  world : World
  messageSink : Option String
deriving DecidableEq, Repr

/-- `DomainQueuer.startMessage(user)`:
`envelopeFile, smtpMessage = queue.createNewMessage()`, then inside
`try: pickle.dump([str(user.orig), str(user.dest)], envelopeFile)
finally: envelopeFile.close()`, and finally `return smtpMessage`.
The possibility that the pickle write fails (a storage failure) is an input
`dumpFails`; the `finally` clause closes the envelope handle on both the
normal and the raising path, after which the error, if any, propagates. -/
def DomainQueuer.startMessage (u : User) (key : String) (dumpFails : Bool)
    (w : World) : StartResult :=
  let r := createNewMessage key w
  let w1 := r.1
  let envelopeFile := r.2.1
  let smtpMessage := r.2.2
  if dumpFails then
    { err := some Err.storageFailure,
      world := closeHandle envelopeFile w1,
      messageSink := none }
  else
    let w2 : World :=
      { w1 with fs := fsWrite envelopeFile (FileContent.pickled [u.orig, u.dest]) w1.fs }
    { err := none,
      world := closeHandle envelopeFile w2,
      messageSink := some smtpMessage }

/-- A Python value held in a loaded message entry: the unpickled envelope is a
list of strings, to which `loadMessages` appends the open data-file handle. -/
inductive PyVal
  | str (s : String)
  | file (name : String)
deriving DecidableEq, Repr

/-- The in-memory state of a `RelayerMixin`: the parallel lists
`self.messages` and `self.names`. -/
structure AgentState where
  messages : List (List PyVal)
  names : List String
deriving DecidableEq, Repr

/-- The loop body of `RelayerMixin.loadMessages`, with the accumulated
`messages` and `names`.  For each base path: `open(message + '-H')` (raises a
storage failure when the file is absent), `pickle.load(fp)` (fails when the
content was not written by `pickle.dump`), `fp.close()`, then
`open(message + '-D')` (raises when absent) and append the handle to the
unpickled contents. -/
def loadMessagesAux : List String → FS → List (List PyVal) → List String →
    Except Err AgentState
  | [], _, msgs, names => Except.ok ⟨msgs, names⟩
  | p :: rest, fs, msgs, names =>
    match fsLookup (p ++ "-H") fs with
    | none => Except.error Err.storageFailure
    | some (FileContent.raw _) => Except.error Err.unpicklingError
    | some (FileContent.pickled env) =>
      match fsLookup (p ++ "-D") fs with
      | none => Except.error Err.storageFailure
      | some _ =>
        loadMessagesAux rest fs
          (msgs ++ [env.map PyVal.str ++ [PyVal.file (p ++ "-D")]])
          (names ++ [p])

/-- `RelayerMixin.loadMessages(messagePaths)`: starts from empty
`self.messages` / `self.names` and loads every path in order. -/
def loadMessages (messagePaths : List String) (fs : FS) : Except Err AgentState :=
  loadMessagesAux messagePaths fs [] []

/-- `RelayerMixin.getMailFrom`: `None` when `self.messages` is empty,
otherwise `self.messages[0][0]` (an `IndexError` would be raised were the
front entry empty). -/
def getMailFrom (st : AgentState) : Except Err (Option PyVal) :=
  match st.messages with
  | [] => Except.ok none
  | m :: _ =>
    match m.get? 0 with
    | some v => Except.ok (some v)
    | none => Except.error Err.indexError

/-- `RelayerMixin.getMailTo`: `None` when empty, otherwise the one-element
list `[self.messages[0][1]]`. -/
def getMailTo (st : AgentState) : Except Err (Option (List PyVal)) :=
  match st.messages with
  | [] => Except.ok none
  | m :: _ =>
    match m.get? 1 with
    | some v => Except.ok (some [v])
    | none => Except.error Err.indexError

/-- `RelayerMixin.getMailData`: `None` when empty, otherwise
`self.messages[0][2]` (the open data handle). -/
def getMailData (st : AgentState) : Except Err (Option PyVal) :=
  match st.messages with
  | [] => Except.ok none
  | m :: _ =>
    match m.get? 2 with
    | some v => Except.ok (some v)
    | none => Except.error Err.indexError

/-- Modelled from the spec: `smtp.SUCCESS` (from `twisted.mail.smtp`, not under
`src/`), the set of SMTP status codes that indicate success — the 2xx range. -/
def SUCCESS (code : Nat) : Bool :=
  200 ≤ code && code < 300

/-- The outcome of `RelayerMixin.sentMail`: the propagated exception (if any)
together with the agent state and the file system as mutated up to the point
where the exception, if any, was raised. -/
structure SentMailResult where
  err : Option Err
  state : AgentState
  fs : FS
deriving DecidableEq, Repr

/-- `RelayerMixin.sentMail(code, resp, numOk, addresses, log)` (only the
status code is consulted; the other parameters are unused by the source):

    if code in smtp.SUCCESS:
        os.remove(self.names[0] + '-D')
        os.remove(self.names[0] + '-H')
    del self.messages[0]
    del self.names[0]

Each indexing of an empty list raises `IndexError`, and `os.remove` of an
absent file raises an `OSError`; in every raising case the state mutated so
far is retained. -/
def sentMail (code : Nat) (st : AgentState) (fs : FS) : SentMailResult :=
  if SUCCESS code then
    match st.names with
    | [] => { err := some Err.indexError, state := st, fs := fs }
    | n :: ns =>
      match osRemove (n ++ "-D") fs with
      | none => { err := some Err.storageFailure, state := st, fs := fs }
      | some fs1 =>
        match osRemove (n ++ "-H") fs1 with
        | none => { err := some Err.storageFailure, state := st, fs := fs1 }
        | some fs2 =>
          match st.messages with
          | [] => { err := some Err.indexError, state := st, fs := fs2 }
          | _ :: ms => { err := none, state := ⟨ms, ns⟩, fs := fs2 }
  else
    match st.messages with
    | [] => { err := some Err.indexError, state := st, fs := fs }
    | _ :: ms =>
      match st.names with
      | [] => { err := some Err.indexError, state := ⟨ms, []⟩, fs := fs }
      | _ :: ns => { err := none, state := ⟨ms, ns⟩, fs := fs }

/-- Whether a loaded-message element is a plain (unpickled) string. -/
def isStrVal : PyVal → Bool
  | .str _ => true
  | .file _ => false

/-- One loaded entry of `self.messages` is aligned with its base key in
`self.names` when it ends with the open handle over that key's data artifact
and everything before the handle is unpickled envelope data. -/
def entryAligned (m : List PyVal) (n : String) : Bool :=
  match m.getLast? with
  | some (PyVal.file d) => (d == n ++ "-D") && m.dropLast.all isStrVal
  | _ => false

/-- The parallel lists `self.messages` and `self.names` are index-aligned:
equal length, and each entry is aligned with the base key at the same
position. -/
def itemsAligned : List (List PyVal) → List String → Bool
  | [], [] => true
  | m :: ms, n :: ns => entryAligned m n && itemsAligned ms ns
  | _, _ => false

/-! ### Helper lemmas about the file-system model -/

theorem lookup_filter_self (name : String) (fs : FS) :
    fsLookup name (fs.filter (fun e => e.1 != name)) = none := by
  induction fs with
  | nil => simp [fsLookup]
  | cons e rest ih =>
    obtain ⟨k, v⟩ := e
    by_cases h : k = name
    · simp [List.filter_cons, h, ih]
    · simp [List.filter_cons, h, fsLookup, ih]

theorem lookup_filter_other (name name' : String) (h : name' ≠ name) (fs : FS) :
    fsLookup name' (fs.filter (fun e => e.1 != name)) = fsLookup name' fs := by
  induction fs with
  | nil => simp
  | cons e rest ih =>
    obtain ⟨k, v⟩ := e
    by_cases hk : k = name
    · subst hk
      simp [List.filter_cons, fsLookup, Ne.symm h, ih]
    · simp [List.filter_cons, hk, fsLookup, ih]

theorem osRemove_eq_some (name : String) (fs : FS) (h : fsHas name fs = true) :
    osRemove name fs = some (fs.filter (fun e => e.1 != name)) := by
  simp [osRemove, h]

theorem osRemove_eq_none (name : String) (fs : FS) (h : fsHas name fs = false) :
    osRemove name fs = none := by
  simp [osRemove, h]

theorem fsHas_osRemove_self (name : String) (fs fs' : FS)
    (h : osRemove name fs = some fs') : fsHas name fs' = false := by
  unfold osRemove at h
  by_cases hh : fsHas name fs = true
  · simp [hh] at h
    subst h
    simp [fsHas, lookup_filter_self]
  · simp [hh] at h

theorem fsHas_osRemove_other (name name' : String) (hne : name' ≠ name)
    (fs fs' : FS) (h : osRemove name fs = some fs') :
    fsHas name' fs' = fsHas name' fs := by
  unfold osRemove at h
  by_cases hh : fsHas name fs = true
  · simp [hh] at h
    subst h
    simp [fsHas, lookup_filter_other name name' hne]
  · simp at hh
    simp [hh] at h

theorem string_append_right_inj (n s t : String) (h : n ++ s = n ++ t) : s = t := by
  have hd : n.data ++ s.data = n.data ++ t.data := by
    have := congrArg String.data h
    simpa using this
  have hst : s.data = t.data := List.append_cancel_left hd
  cases s
  cases t
  simp only at hst
  rw [hst]

theorem suffixD_ne_suffixH (n : String) : n ++ "-D" ≠ n ++ "-H" := by
  intro h
  have hdh := string_append_right_inj n "-D" "-H" h
  exact absurd hdh (by decide)

/-! ### C1 — the default relay policy -/

/-- C1: `DomainQueuerRelayRules.willRelay` returns true iff the originator is
authenticated, or the peer is a UNIX-socket (local inter-process) address, or
the peer's network host is `'127.0.0.1'`; in particular it is true whenever
`authorized` holds, and false for every unauthenticated, non-loopback,
non-UNIX-socket connection. -/
theorem willRelay_default_policy (address : String) (peer : Peer) (authorized : Bool) :
    (DomainQueuerRelayRules.willRelay address peer authorized = true ↔
      (authorized = true ∨ (∃ n, peer = Peer.unix n) ∨ peer.host? = some "127.0.0.1")) ∧
    (authorized = true → DomainQueuerRelayRules.willRelay address peer authorized = true) ∧
    (authorized = false → (∀ n, peer ≠ Peer.unix n) →
      peer.host? ≠ some "127.0.0.1" →
      DomainQueuerRelayRules.willRelay address peer authorized = false) := by
  cases peer <;> cases authorized <;>
    simp [DomainQueuerRelayRules.willRelay, Peer.host?]

/-- Witness for C1 at concrete inputs: an authenticated originator is relayed
even from a remote peer, and an unauthenticated remote peer is refused. -/
theorem willRelay_default_policy_witness :
    DomainQueuerRelayRules.willRelay "b@y" (Peer.inet "10.0.0.9") true = true ∧
    DomainQueuerRelayRules.willRelay "b@y" (Peer.inet "10.0.0.9") false = false := by
  constructor
  · exact (willRelay_default_policy "b@y" (Peer.inet "10.0.0.9") true).2.1 rfl
  · exact (willRelay_default_policy "b@y" (Peer.inet "10.0.0.9") false).2.2 rfl
      (by intro n h; cases h) (by simp [Peer.host?])

/-! ### C2 — `DomainQueuer.exists` accepts or rejects -/

/-- C2: `DomainQueuer.exists` raises `SMTPBadRcpt` iff the relay policy denies
the request or the sender or recipient fails to split on the first `'@'` into
exactly two non-empty parts; it never touches storage (the file system is
returned unchanged, so nothing is created when it raises); otherwise it
returns the factory `lambda: self.startMessage(user)` (modelled by the
captured user). -/
theorem existsCheck_rejects_iff (authed : Bool) (u : User) (fs : FS) :
    ((DomainQueuer.existsCheck authed u fs).1 = Except.error Err.smtpBadRcpt ↔
      (DomainQueuerRelayRules.willRelay u.dest u.peer authed = false ∨
        (truthyParts u.orig).length ≠ 2 ∨ (truthyParts u.dest).length ≠ 2)) ∧
    (DomainQueuer.existsCheck authed u fs).2 = fs ∧
    (DomainQueuerRelayRules.willRelay u.dest u.peer authed = true →
      (truthyParts u.orig).length = 2 → (truthyParts u.dest).length = 2 →
      (DomainQueuer.existsCheck authed u fs).1 = Except.ok u) := by
  unfold DomainQueuer.existsCheck
  cases hw : DomainQueuerRelayRules.willRelay u.dest u.peer authed <;>
    by_cases h1 : (truthyParts u.orig).length = 2 <;>
    by_cases h2 : (truthyParts u.dest).length = 2 <;>
    simp [hw, h1, h2]

/-- Witness for C2 at concrete inputs: a well-formed pair from the loopback
peer is accepted, and a recipient without a domain part is rejected. -/
theorem existsCheck_rejects_iff_witness :
    (DomainQueuer.existsCheck false ⟨"a@x", "b@y", Peer.inet "127.0.0.1"⟩ []).1 =
      Except.ok ⟨"a@x", "b@y", Peer.inet "127.0.0.1"⟩ ∧
    (DomainQueuer.existsCheck false ⟨"a@x", "b", Peer.inet "127.0.0.1"⟩ []).1 =
      Except.error Err.smtpBadRcpt := by
  constructor
  · exact (existsCheck_rejects_iff false ⟨"a@x", "b@y", Peer.inet "127.0.0.1"⟩ []).2.2
      (by decide) (by decide) (by decide)
  · exact (existsCheck_rejects_iff false ⟨"a@x", "b", Peer.inet "127.0.0.1"⟩ []).1.mpr
      (by right; right; decide)

/-! ### C10 — `sentMail` on a drained agent -/

/-- C10: calling `sentMail` when the in-memory batch is empty fails with an
`IndexError` before any artifact is deleted: whatever the status code, the
file system and the (empty) state are unchanged. -/
theorem sentMail_empty_batch (code : Nat) (fs : FS) :
    (sentMail code ⟨[], []⟩ fs).err = some Err.indexError ∧
    (sentMail code ⟨[], []⟩ fs).fs = fs ∧
    (sentMail code ⟨[], []⟩ fs).state = ⟨[], []⟩ := by
  by_cases h : SUCCESS code = true <;> simp [sentMail, h]

/-! ### C3 — successful delivery removes both artifacts -/

/-- C3: on a non-empty batch, `sentMail` with a status code in the SMTP
success set removes both the data artifact (base key + `-D`) and the header
artifact (base key + `-H`) of the front item before returning, and returns
without an exception. -/
theorem sentMail_success_removes_artifacts (code : Nat) (st : AgentState) (fs : FS)
    (hsucc : SUCCESS code = true)
    (m : List PyVal) (ms : List (List PyVal)) (hm : st.messages = m :: ms)
    (n : String) (ns : List String) (hn : st.names = n :: ns)
    (hD : fsHas (n ++ "-D") fs = true) (hH : fsHas (n ++ "-H") fs = true) :
    (sentMail code st fs).err = none ∧
    fsHas (n ++ "-D") (sentMail code st fs).fs = false ∧
    fsHas (n ++ "-H") (sentMail code st fs).fs = false := by
  obtain ⟨msgs, names⟩ := st
  simp only at hm hn
  subst hm
  subst hn
  have hr1 := osRemove_eq_some (n ++ "-D") fs hD
  have hH1 : fsHas (n ++ "-H") (fs.filter (fun e => e.1 != n ++ "-D")) = true := by
    rw [fsHas_osRemove_other (n ++ "-D") (n ++ "-H")
      (Ne.symm (suffixD_ne_suffixH n)) fs _ hr1]
    exact hH
  have hr2 := osRemove_eq_some (n ++ "-H") _ hH1
  have hD1 : fsHas (n ++ "-D") (fs.filter (fun e => e.1 != n ++ "-D")) = false :=
    fsHas_osRemove_self _ _ _ hr1
  refine ⟨by simp [sentMail, hsucc, hr1, hr2], ?_, ?_⟩
  · rw [show (sentMail code ⟨m :: ms, n :: ns⟩ fs).fs =
        ((fs.filter (fun e => e.1 != n ++ "-D")).filter (fun e => e.1 != n ++ "-H"))
      from by simp [sentMail, hsucc, hr1, hr2]]
    rw [fsHas_osRemove_other (n ++ "-H") (n ++ "-D") (suffixD_ne_suffixH n) _ _ hr2]
    exact hD1
  · rw [show (sentMail code ⟨m :: ms, n :: ns⟩ fs).fs =
        ((fs.filter (fun e => e.1 != n ++ "-D")).filter (fun e => e.1 != n ++ "-H"))
      from by simp [sentMail, hsucc, hr1, hr2]]
    exact fsHas_osRemove_self _ _ _ hr2

/-- Witness for C3: a one-item batch, a 250 status code — both files gone,
no exception. -/
theorem sentMail_success_removes_artifacts_witness :
    (sentMail 250 ⟨[[PyVal.str "a@x", PyVal.str "b@y", PyVal.file "q1-D"]], ["q1"]⟩
      [("q1-H", FileContent.pickled ["a@x", "b@y"]), ("q1-D", FileContent.raw [])]).err
        = none ∧
    fsHas ("q1" ++ "-D")
      (sentMail 250 ⟨[[PyVal.str "a@x", PyVal.str "b@y", PyVal.file "q1-D"]], ["q1"]⟩
        [("q1-H", FileContent.pickled ["a@x", "b@y"]), ("q1-D", FileContent.raw [])]).fs
        = false ∧
    fsHas ("q1" ++ "-H")
      (sentMail 250 ⟨[[PyVal.str "a@x", PyVal.str "b@y", PyVal.file "q1-D"]], ["q1"]⟩
        [("q1-H", FileContent.pickled ["a@x", "b@y"]), ("q1-D", FileContent.raw [])]).fs
        = false :=
  sentMail_success_removes_artifacts 250 _ _ (by decide)
    [PyVal.str "a@x", PyVal.str "b@y", PyVal.file "q1-D"] [] rfl
    "q1" [] rfl (by decide) (by decide)

/-! ### C4 — every call advances past the front item; failures leave disk alone -/

/-- C4: on a non-empty batch, `sentMail` removes exactly the front item from
both in-memory lists whatever the status code (for a success code this is
under the data-model invariant that the front item's two artifacts exist on
disk), and when the status code is not a success code the file system is left
untouched. -/
theorem sentMail_advances_front (code : Nat) (st : AgentState) (fs : FS)
    (m : List PyVal) (ms : List (List PyVal)) (hm : st.messages = m :: ms)
    (n : String) (ns : List String) (hn : st.names = n :: ns)
    (hfiles : SUCCESS code = true →
      fsHas (n ++ "-D") fs = true ∧ fsHas (n ++ "-H") fs = true) :
    (sentMail code st fs).err = none ∧
    (sentMail code st fs).state.messages = ms ∧
    (sentMail code st fs).state.names = ns ∧
    (SUCCESS code = false → (sentMail code st fs).fs = fs) := by
  obtain ⟨msgs, names⟩ := st
  simp only at hm hn
  subst hm
  subst hn
  by_cases hs : SUCCESS code = true
  · obtain ⟨hD, hH⟩ := hfiles hs
    have hr1 := osRemove_eq_some (n ++ "-D") fs hD
    have hH1 : fsHas (n ++ "-H") (fs.filter (fun e => e.1 != n ++ "-D")) = true := by
      rw [fsHas_osRemove_other (n ++ "-D") (n ++ "-H")
        (Ne.symm (suffixD_ne_suffixH n)) fs _ hr1]
      exact hH
    have hr2 := osRemove_eq_some (n ++ "-H") _ hH1
    simp [sentMail, hs, hr1, hr2]
  · simp [sentMail, hs]

/-- Witness for C4: a failed delivery (status 421) advances the batch and
deletes nothing. -/
theorem sentMail_advances_front_witness :
    (sentMail 421 ⟨[[PyVal.str "a@x", PyVal.str "b@y", PyVal.file "q2-D"]], ["q2"]⟩
      [("q2-H", FileContent.pickled ["a@x", "b@y"]), ("q2-D", FileContent.raw [])]).err
        = none ∧
    (sentMail 421 ⟨[[PyVal.str "a@x", PyVal.str "b@y", PyVal.file "q2-D"]], ["q2"]⟩
      [("q2-H", FileContent.pickled ["a@x", "b@y"]),
       ("q2-D", FileContent.raw [])]).state.messages = [] ∧
    (sentMail 421 ⟨[[PyVal.str "a@x", PyVal.str "b@y", PyVal.file "q2-D"]], ["q2"]⟩
      [("q2-H", FileContent.pickled ["a@x", "b@y"]),
       ("q2-D", FileContent.raw [])]).state.names = [] ∧
    (SUCCESS 421 = false →
      (sentMail 421 ⟨[[PyVal.str "a@x", PyVal.str "b@y", PyVal.file "q2-D"]], ["q2"]⟩
        [("q2-H", FileContent.pickled ["a@x", "b@y"]), ("q2-D", FileContent.raw [])]).fs
        = [("q2-H", FileContent.pickled ["a@x", "b@y"]), ("q2-D", FileContent.raw [])]) :=
  sentMail_advances_front 421 _ _
    [PyVal.str "a@x", PyVal.str "b@y", PyVal.file "q2-D"] [] rfl
    "q2" [] rfl (fun h => absurd h (by decide))

/-! ### C5 — the accessors expose the front item, or absence -/

/-- C5: when the batch is empty, `getMailFrom`, `getMailTo` and `getMailData`
all return `None`; when it is non-empty, they return the front item's sender,
the one-element list of its recipient, and its open data handle. -/
theorem accessors_front_item (st : AgentState) :
    (st.messages = [] →
      getMailFrom st = Except.ok none ∧ getMailTo st = Except.ok none ∧
      getMailData st = Except.ok none) ∧
    (∀ s r d rest, st.messages = [PyVal.str s, PyVal.str r, PyVal.file d] :: rest →
      getMailFrom st = Except.ok (some (PyVal.str s)) ∧
      getMailTo st = Except.ok (some [PyVal.str r]) ∧
      getMailData st = Except.ok (some (PyVal.file d))) := by
  constructor
  · intro he
    simp [getMailFrom, getMailTo, getMailData, he]
  · intro s r d rest hm
    simp [getMailFrom, getMailTo, getMailData, hm]

/-- Witness for C5: the empty agent returns absence, and a loaded agent
exposes the front item's fields. -/
theorem accessors_front_item_witness :
    (getMailFrom ⟨[], []⟩ = Except.ok none ∧ getMailTo ⟨[], []⟩ = Except.ok none ∧
      getMailData ⟨[], []⟩ = Except.ok none) ∧
    (getMailFrom ⟨[[PyVal.str "a@x", PyVal.str "b@y", PyVal.file "q3-D"]], ["q3"]⟩ =
        Except.ok (some (PyVal.str "a@x")) ∧
      getMailTo ⟨[[PyVal.str "a@x", PyVal.str "b@y", PyVal.file "q3-D"]], ["q3"]⟩ =
        Except.ok (some [PyVal.str "b@y"]) ∧
      getMailData ⟨[[PyVal.str "a@x", PyVal.str "b@y", PyVal.file "q3-D"]], ["q3"]⟩ =
        Except.ok (some (PyVal.file "q3-D"))) :=
  ⟨(accessors_front_item ⟨[], []⟩).1 rfl,
    (accessors_front_item _).2 "a@x" "b@y" "q3-D" [] rfl⟩

/-! ### Further file-system helper lemmas -/

theorem fsHas_false_lookup_none (k : String) (fs : FS) (h : fsHas k fs = false) :
    fsLookup k fs = none := by
  unfold fsHas at h
  exact Option.not_isSome_iff_eq_none.mp (by simp [h])

theorem fsLookup_append_right (k : String) (l1 l2 : FS) (h : fsHas k l1 = false) :
    fsLookup k (l1 ++ l2) = fsLookup k l2 := by
  induction l1 with
  | nil => simp
  | cons e rest ih =>
    unfold fsHas fsLookup at h
    by_cases he : e.1 = k
    · simp [he] at h
    · simp only [List.cons_append, fsLookup, he, if_false]
      exact ih (by simpa [fsHas, he] using h)

theorem fsWrite_notHas (name : String) (c : FileContent) (fs : FS)
    (h : fsHas name fs = false) : fsWrite name c fs = fs := by
  induction fs with
  | nil => rfl
  | cons e rest ih =>
    unfold fsHas fsLookup at h
    by_cases he : e.1 = name
    · simp [he] at h
    · have h' : fsHas name rest = false := by simpa [fsHas, he] using h
      simp only [fsWrite, List.map_cons]
      rw [show (if e.1 == name then (name, c) else e) = e from by simp [he]]
      have := ih h'
      simp only [fsWrite] at this
      rw [this]

/-! ### C7 — the header handle is released on every exit path -/

/-- C7: `startMessage` closes the envelope (header) file handle on all exit
paths: after it returns, the header handle is not among the open handles,
whether or not the pickle write failed; when the write fails the error
propagates (only after the close), and otherwise no error is raised. -/
theorem startMessage_closes_header (u : User) (key : String) (dumpFails : Bool)
    (w : World) :
    (key ++ "-H") ∉ (DomainQueuer.startMessage u key dumpFails w).world.openHandles ∧
    (dumpFails = true →
      (DomainQueuer.startMessage u key dumpFails w).err = some Err.storageFailure) ∧
    (dumpFails = false → (DomainQueuer.startMessage u key dumpFails w).err = none) := by
  cases dumpFails <;>
    simp [DomainQueuer.startMessage, createNewMessage, closeHandle, List.mem_filter]

/-- Witness for C7: a failing pickle write still leaves the header handle
closed, and the storage error propagates. -/
theorem startMessage_closes_header_witness :
    ("q4" ++ "-H") ∉ (DomainQueuer.startMessage ⟨"a@x", "b@y", Peer.inet "127.0.0.1"⟩
      "q4" true ⟨[], []⟩).world.openHandles ∧
    (DomainQueuer.startMessage ⟨"a@x", "b@y", Peer.inet "127.0.0.1"⟩
      "q4" true ⟨[], []⟩).err = some Err.storageFailure :=
  ⟨(startMessage_closes_header ⟨"a@x", "b@y", Peer.inet "127.0.0.1"⟩ "q4" true ⟨[], []⟩).1,
   (startMessage_closes_header ⟨"a@x", "b@y", Peer.inet "127.0.0.1"⟩ "q4" true
     ⟨[], []⟩).2.1 rfl⟩

/-! ### C6 — round-trip of the persisted envelope -/

theorem startMessage_fs_eq (u : User) (key : String) (w : World)
    (hH : fsHas (key ++ "-H") w.fs = false) :
    (DomainQueuer.startMessage u key false w).world.fs =
      w.fs ++ [(key ++ "-H", FileContent.pickled [u.orig, u.dest]),
               (key ++ "-D", FileContent.raw [])] := by
  have hw := fsWrite_notHas (key ++ "-H") (FileContent.pickled [u.orig, u.dest]) w.fs hH
  simp only [fsWrite] at hw
  simp only [beq_iff_eq] at hw
  simp [DomainQueuer.startMessage, createNewMessage, closeHandle, fsWrite,
    List.map_append, hw, suffixD_ne_suffixH key]

/-- C6: the `[sender, recipient]` pair persisted by `startMessage` into the
header artifact of a fresh base key deserializes, through `loadMessages`, to
the identical pair, and the delivery agent's accessors expose it unchanged. -/
theorem startMessage_load_roundtrip (u : User) (key : String) (w : World)
    (hH : fsHas (key ++ "-H") w.fs = false)
    (hD : fsHas (key ++ "-D") w.fs = false) :
    (DomainQueuer.startMessage u key false w).err = none ∧
    loadMessages [key] (DomainQueuer.startMessage u key false w).world.fs =
      Except.ok ⟨[[PyVal.str u.orig, PyVal.str u.dest, PyVal.file (key ++ "-D")]], [key]⟩ ∧
    getMailFrom ⟨[[PyVal.str u.orig, PyVal.str u.dest, PyVal.file (key ++ "-D")]], [key]⟩ =
      Except.ok (some (PyVal.str u.orig)) ∧
    getMailTo ⟨[[PyVal.str u.orig, PyVal.str u.dest, PyVal.file (key ++ "-D")]], [key]⟩ =
      Except.ok (some [PyVal.str u.dest]) := by
  have hfs := startMessage_fs_eq u key w hH
  have hlookH : fsLookup (key ++ "-H")
      (DomainQueuer.startMessage u key false w).world.fs =
      some (FileContent.pickled [u.orig, u.dest]) := by
    rw [hfs, fsLookup_append_right _ _ _ hH]
    simp [fsLookup]
  have hlookD : fsLookup (key ++ "-D")
      (DomainQueuer.startMessage u key false w).world.fs =
      some (FileContent.raw []) := by
    rw [hfs, fsLookup_append_right _ _ _ hD]
    simp [fsLookup, Ne.symm (suffixD_ne_suffixH key)]
  refine ⟨by simp [DomainQueuer.startMessage], ?_, by simp [getMailFrom],
    by simp [getMailTo]⟩
  simp [loadMessages, loadMessagesAux, hlookH, hlookD]

/-- Witness for C6: round-trip of `("a@x", "b@y")` through an initially empty
store. -/
theorem startMessage_load_roundtrip_witness :
    (DomainQueuer.startMessage ⟨"a@x", "b@y", Peer.inet "127.0.0.1"⟩ "q6" false
      ⟨[], []⟩).err = none ∧
    loadMessages ["q6"] (DomainQueuer.startMessage ⟨"a@x", "b@y", Peer.inet "127.0.0.1"⟩
        "q6" false ⟨[], []⟩).world.fs =
      Except.ok ⟨[[PyVal.str "a@x", PyVal.str "b@y", PyVal.file ("q6" ++ "-D")]], ["q6"]⟩ ∧
    getMailFrom ⟨[[PyVal.str "a@x", PyVal.str "b@y", PyVal.file ("q6" ++ "-D")]], ["q6"]⟩ =
      Except.ok (some (PyVal.str "a@x")) ∧
    getMailTo ⟨[[PyVal.str "a@x", PyVal.str "b@y", PyVal.file ("q6" ++ "-D")]], ["q6"]⟩ =
      Except.ok (some [PyVal.str "b@y"]) :=
  startMessage_load_roundtrip ⟨"a@x", "b@y", Peer.inet "127.0.0.1"⟩ "q6" ⟨[], []⟩
    rfl rfl

/-! ### C8 — a drained base key cannot be silently re-delivered -/

theorem sentMail_success_eq (code : Nat) (fs : FS) (hsucc : SUCCESS code = true)
    (m : List PyVal) (ms : List (List PyVal)) (n : String) (ns : List String)
    (hD : fsHas (n ++ "-D") fs = true)
    (hH1 : fsHas (n ++ "-H") (fs.filter (fun e => e.1 != n ++ "-D")) = true) :
    sentMail code ⟨m :: ms, n :: ns⟩ fs =
      { err := none, state := ⟨ms, ns⟩,
        fs := (fs.filter (fun e => e.1 != n ++ "-D")).filter
          (fun e => e.1 != n ++ "-H") } := by
  have hr1 := osRemove_eq_some (n ++ "-D") fs hD
  have hr2 := osRemove_eq_some (n ++ "-H") _ hH1
  simp [sentMail, hsucc, hr1, hr2]

/-- C8: after a successful `sentMail` has removed both artifacts of the front
base key, that key is gone: constructing a new agent over it
(`loadMessages [n]`) fails with a storage error, and a second success-path
`sentMail` whose front name is the same key also fails with a storage error
while deleting nothing further. -/
theorem drained_key_not_redeliverable (code : Nat) (st : AgentState) (fs : FS)
    (hsucc : SUCCESS code = true)
    (m : List PyVal) (ms : List (List PyVal)) (hm : st.messages = m :: ms)
    (n : String) (ns : List String) (hn : st.names = n :: ns)
    (hD : fsHas (n ++ "-D") fs = true) (hH : fsHas (n ++ "-H") fs = true) :
    (sentMail code st fs).err = none ∧
    loadMessages [n] (sentMail code st fs).fs = Except.error Err.storageFailure ∧
    (∀ st2 : AgentState, ∀ ns2 : List String, st2.names = n :: ns2 →
      (sentMail code st2 (sentMail code st fs).fs).err = some Err.storageFailure ∧
      (sentMail code st2 (sentMail code st fs).fs).fs = (sentMail code st fs).fs ∧
      (sentMail code st2 (sentMail code st fs).fs).state = st2) := by
  obtain ⟨msgs, names⟩ := st
  simp only at hm hn
  subst hm
  subst hn
  have hr1 := osRemove_eq_some (n ++ "-D") fs hD
  have hH1 : fsHas (n ++ "-H") (fs.filter (fun e => e.1 != n ++ "-D")) = true := by
    rw [fsHas_osRemove_other (n ++ "-D") (n ++ "-H")
      (Ne.symm (suffixD_ne_suffixH n)) fs _ hr1]
    exact hH
  have heq := sentMail_success_eq code fs hsucc m ms n ns hD hH1
  have hr2 := osRemove_eq_some (n ++ "-H") _ hH1
  have hHgone : fsHas (n ++ "-H") (sentMail code ⟨m :: ms, n :: ns⟩ fs).fs = false := by
    rw [heq]
    exact fsHas_osRemove_self _ _ _ hr2
  have hDgone : fsHas (n ++ "-D") (sentMail code ⟨m :: ms, n :: ns⟩ fs).fs = false := by
    rw [heq]
    rw [fsHas_osRemove_other (n ++ "-H") (n ++ "-D") (suffixD_ne_suffixH n) _ _ hr2]
    exact fsHas_osRemove_self _ _ _ hr1
  refine ⟨by rw [heq], ?_, ?_⟩
  · simp [loadMessages, loadMessagesAux, fsHas_false_lookup_none _ _ hHgone]
  · intro st2 ns2 hn2
    obtain ⟨msgs2, names2⟩ := st2
    simp only at hn2
    subst hn2
    have hrm := osRemove_eq_none (n ++ "-D") _ hDgone
    rw [heq] at hrm ⊢
    simp only [List.filter_filter] at hrm
    simp [sentMail, hsucc, hrm]

/-- Witness for C8: delivering the one-item batch over base key `q7`
succeeds; re-loading `q7` and re-acknowledging over it both fail with a
storage error. -/
theorem drained_key_not_redeliverable_witness :
    (sentMail 250 ⟨[[PyVal.str "a@x", PyVal.str "b@y", PyVal.file "q7-D"]], ["q7"]⟩
      [("q7-H", FileContent.pickled ["a@x", "b@y"]), ("q7-D", FileContent.raw [])]).err
        = none ∧
    loadMessages ["q7"]
      (sentMail 250 ⟨[[PyVal.str "a@x", PyVal.str "b@y", PyVal.file "q7-D"]], ["q7"]⟩
        [("q7-H", FileContent.pickled ["a@x", "b@y"]), ("q7-D", FileContent.raw [])]).fs
        = Except.error Err.storageFailure ∧
    (sentMail 250 ⟨[], ["q7"]⟩
      (sentMail 250 ⟨[[PyVal.str "a@x", PyVal.str "b@y", PyVal.file "q7-D"]], ["q7"]⟩
        [("q7-H", FileContent.pickled ["a@x", "b@y"]), ("q7-D", FileContent.raw [])]).fs).err
        = some Err.storageFailure := by
  have h := drained_key_not_redeliverable 250
    ⟨[[PyVal.str "a@x", PyVal.str "b@y", PyVal.file "q7-D"]], ["q7"]⟩
    [("q7-H", FileContent.pickled ["a@x", "b@y"]), ("q7-D", FileContent.raw [])]
    (by decide) [PyVal.str "a@x", PyVal.str "b@y", PyVal.file "q7-D"] [] rfl
    "q7" [] rfl (by decide) (by decide)
  exact ⟨h.1, h.2.1, (h.2.2 ⟨[], ["q7"]⟩ [] rfl).1⟩

/-! ### C9 — the parallel lists stay index-aligned -/

theorem itemsAligned_length (ms : List (List PyVal)) (ns : List String)
    (h : itemsAligned ms ns = true) : ms.length = ns.length := by
  induction ms generalizing ns with
  | nil =>
    cases ns with
    | nil => rfl
    | cons n ns => simp [itemsAligned] at h
  | cons m ms ih =>
    cases ns with
    | nil => simp [itemsAligned] at h
    | cons n ns =>
      simp only [itemsAligned, Bool.and_eq_true] at h
      simp [ih ns h.2]

theorem itemsAligned_concat (ms : List (List PyVal)) (ns : List String)
    (m : List PyVal) (n : String) (h : itemsAligned ms ns = true)
    (he : entryAligned m n = true) :
    itemsAligned (ms ++ [m]) (ns ++ [n]) = true := by
  induction ms generalizing ns with
  | nil =>
    cases ns with
    | nil => simp [itemsAligned, he]
    | cons n' ns' => simp [itemsAligned] at h
  | cons m' ms' ih =>
    cases ns with
    | nil => simp [itemsAligned] at h
    | cons n' ns' =>
      simp only [itemsAligned, Bool.and_eq_true] at h
      simp only [List.cons_append, itemsAligned, Bool.and_eq_true]
      exact ⟨h.1, ih ns' h.2⟩

theorem entryAligned_loaded (env : List String) (p : String) :
    entryAligned (env.map PyVal.str ++ [PyVal.file (p ++ "-D")]) p = true := by
  simp [entryAligned, List.getLast?_concat, List.dropLast_concat, List.all_map,
    Function.comp, isStrVal]

theorem loadMessagesAux_aligned (paths : List String) (fs : FS)
    (msgs : List (List PyVal)) (names : List String) (st : AgentState)
    (hal : itemsAligned msgs names = true)
    (h : loadMessagesAux paths fs msgs names = Except.ok st) :
    itemsAligned st.messages st.names = true := by
  induction paths generalizing msgs names with
  | nil =>
    simp [loadMessagesAux] at h
    rw [← h]
    exact hal
  | cons p rest ih =>
    unfold loadMessagesAux at h
    cases hl : fsLookup (p ++ "-H") fs with
    | none => simp [hl] at h
    | some c =>
      cases c with
      | raw _ => simp [hl] at h
      | pickled env =>
        cases hl2 : fsLookup (p ++ "-D") fs with
        | none => simp [hl, hl2] at h
        | some d =>
          simp only [hl, hl2] at h
          exact ih _ _ (itemsAligned_concat _ _ _ _ hal (entryAligned_loaded env p)) h

/-- C9: the parallel in-memory lists `self.messages` and `self.names` stay
index-aligned (equal length, `names[i]` the base key of `messages[i]`):
`loadMessages` establishes the alignment, and every `sentMail` call preserves
it — on a normal return by removing the front element of both lists, and on a
raising return by leaving the state as it was. -/
theorem parallel_lists_invariant :
    (∀ paths fs st, loadMessages paths fs = Except.ok st →
      itemsAligned st.messages st.names = true ∧
      st.messages.length = st.names.length) ∧
    (∀ code st fs, itemsAligned st.messages st.names = true →
      itemsAligned (sentMail code st fs).state.messages
        (sentMail code st fs).state.names = true ∧
      (sentMail code st fs).state.messages.length =
        (sentMail code st fs).state.names.length ∧
      ((sentMail code st fs).err = none →
        (sentMail code st fs).state.messages = st.messages.tail ∧
        (sentMail code st fs).state.names = st.names.tail)) := by
  constructor
  · intro paths fs st h
    have hal := loadMessagesAux_aligned paths fs [] [] st (by rfl) h
    exact ⟨hal, itemsAligned_length _ _ hal⟩
  · intro code st fs hal
    obtain ⟨msgs, names⟩ := st
    simp only at hal
    have step :
        itemsAligned (sentMail code ⟨msgs, names⟩ fs).state.messages
          (sentMail code ⟨msgs, names⟩ fs).state.names = true ∧
        ((sentMail code ⟨msgs, names⟩ fs).err = none →
          (sentMail code ⟨msgs, names⟩ fs).state.messages = msgs.tail ∧
          (sentMail code ⟨msgs, names⟩ fs).state.names = names.tail) := by
      by_cases hs : SUCCESS code = true
      · cases names with
        | nil =>
          cases msgs with
          | nil => simp [sentMail, hs, itemsAligned]
          | cons m ms => simp [itemsAligned] at hal
        | cons n ns =>
          cases hr1 : osRemove (n ++ "-D") fs with
          | none => simp [sentMail, hs, hr1, hal]
          | some fs1 =>
            cases hr2 : osRemove (n ++ "-H") fs1 with
            | none => simp [sentMail, hs, hr1, hr2, hal]
            | some fs2 =>
              cases msgs with
              | nil => simp [itemsAligned] at hal
              | cons m ms =>
                simp only [itemsAligned, Bool.and_eq_true] at hal
                simp [sentMail, hs, hr1, hr2, hal.2]
      · cases msgs with
        | nil => simp [sentMail, hs, hal]
        | cons m ms =>
          cases names with
          | nil => simp [itemsAligned] at hal
          | cons n ns =>
            simp only [itemsAligned, Bool.and_eq_true] at hal
            simp [sentMail, hs, hal.2]
    exact ⟨step.1, itemsAligned_length _ _ step.1, step.2⟩

/-- Witness for C9: a batch loaded from one stored item is aligned, and a
failure-status `sentMail` call advances both lists to empty. -/
theorem parallel_lists_invariant_witness :
    itemsAligned [[PyVal.str "a@x", PyVal.str "b@y", PyVal.file "q8-D"]] ["q8"] = true ∧
    (sentMail 421 ⟨[[PyVal.str "a@x", PyVal.str "b@y", PyVal.file "q8-D"]], ["q8"]⟩
      []).state.messages = [] ∧
    (sentMail 421 ⟨[[PyVal.str "a@x", PyVal.str "b@y", PyVal.file "q8-D"]], ["q8"]⟩
      []).state.names = [] := by
  have h1 := parallel_lists_invariant.1 ["q8"]
    [("q8-H", FileContent.pickled ["a@x", "b@y"]), ("q8-D", FileContent.raw [])]
    ⟨[[PyVal.str "a@x", PyVal.str "b@y", PyVal.file "q8-D"]], ["q8"]⟩ rfl
  have h2 := (parallel_lists_invariant.2 421
    ⟨[[PyVal.str "a@x", PyVal.str "b@y", PyVal.file "q8-D"]], ["q8"]⟩ [] h1.1).2.2
  have h3 := h2 (by decide)
  exact ⟨h1.1, by simpa using h3.1, by simpa using h3.2⟩

end TwistedRelay
